import Mathlib

/-!
Verification of the variant-generation and export-orchestration engine of
`streamlit_app_video.py` (Grumtor's Videos Spoofer).

The Python source is shallowly embedded: every pure helper of the script
(`choose_output_format`, `ffmpeg_build_filtergraph`, `apply_variant_suffix`,
`generate_variants`, the codec-token substitution of `run_ffmpeg_export`, the
suffix/arcname construction inside the export button handler, the rotation
buttons) becomes a Lean function over `String`/`List`/`Int`; the export loop
with its external `ffmpeg` subprocess becomes a fold over an oracle that maps
each invocation to the `(ok, stderr)` pair the subprocess would return, and
the `try/except/finally` cleanup becomes an explicit outcome record.
-/

namespace Spoofer

/-- Mirrors the constant `SUPPORTED_EXTS` of the script. -/
def SUPPORTED_EXTS : List String :=
  [".mp4", ".mov", ".m4v", ".webm", ".mkv", ".avi", ".mpeg", ".mpg", ".wmv"]

/-- Mirrors the constant `ROTATIONS_ALLOWED = {0, 90, 180, 270}`. -/
def ROTATIONS_ALLOWED : List Int := [0, 90, 180, 270]

/-- Models `os.path.basename`: the part of the path after the last slash. -/
def basename (name : String) : String :=
  String.mk ((name.data.reverse.takeWhile (fun c => c ≠ '/')).reverse)

/-- Models `os.path.splitext` on a slash-free name: split at the last dot,
unless every character before that dot is itself a dot (leading-dot rule of
`posixpath.splitext`). -/
def splitext (p : String) : String × String :=
  let cs := p.data
  if '.' ∈ cs then
    let d := cs.length - 1 - cs.reverse.findIdx (fun c => c = '.')
    let pre := cs.take d
    if pre.any (fun c => c ≠ '.') then (String.mk pre, String.mk (cs.drop d))
    else (p, "")
  else (p, "")

/-- Mirrors `ext_lower`: the extension of the name, lowercased. -/
def ext_lower (name : String) : String :=
  ((splitext name).2).map Char.toLower

/-- Mirrors `choose_output_format`: always `.mp4` with the fixed H.264/AAC
codec argument list. -/
def choose_output_format (_src_name : String) : String × List String :=
  (".mp4",
   ["-c:v", "libx264", "-pix_fmt", "yuv420p", "-profile:v", "high",
    "-preset", "medium", "-crf", "18", "-c:a", "aac", "-b:a", "192k"])

/-- Mirrors `generate_variants`: one singleton pipeline per checked effect
checkbox, in the fixed order normal, bw, bwcontrast, goldenhour; defaults to
`[["normal"]]` when nothing is checked. -/
def generate_variants (e_normal e_bw e_bwc e_gh : Bool) : List (List String) :=
  let variants : List (List String) := []
  let variants := if e_normal then variants ++ [["normal"]] else variants
  let variants := if e_bw then variants ++ [["bw"]] else variants
  let variants := if e_bwc then variants ++ [["bwcontrast"]] else variants
  let variants := if e_gh then variants ++ [["goldenhour"]] else variants
  if variants = [] then [["normal"]] else variants

/-- Mirrors `apply_variant_suffix`: underscore-joined pipeline tokens, or
`"_normal"` for an empty pipeline. -/
def apply_variant_suffix (pipeline : List String) : String :=
  if pipeline ≠ [] then "_" ++ String.intercalate "_" pipeline else "_normal"

/-- The three rotation buttons of the sidebar. -/
inductive RotControl
  | minus90
  | plus90
  | plus180
deriving DecidableEq

/-- One click of a rotation button: mirrors
`(cur - 90) % 360`, `(cur + 90) % 360`, `(cur + 180) % 360` (Python `%` on a
positive modulus agrees with `Int.emod`). -/
def apply_rot_control (cur : Int) : RotControl → Int
  | .minus90 => (cur - 90) % 360
  | .plus90 => (cur + 90) % 360
  | .plus180 => (cur + 180) % 360

/-- A finite sequence of rotation-button clicks applied to a stored angle. -/
def apply_rot_controls (cur : Int) (cs : List RotControl) : Int :=
  cs.foldl apply_rot_control cur

/-- Mirrors the export-time clamp: `if angle not in ROTATIONS_ALLOWED: angle = 0`. -/
def clamp_angle (a : Int) : Int :=
  if a ∈ ROTATIONS_ALLOWED then a else 0

lemma apply_rot_control_mem (a : Int) (c : RotControl)
    (h : a ∈ ROTATIONS_ALLOWED) : apply_rot_control a c ∈ ROTATIONS_ALLOWED := by
  simp only [ROTATIONS_ALLOWED, List.mem_cons, List.not_mem_nil, or_false] at h ⊢
  rcases h with h | h | h | h <;> subst h <;> cases c <;> decide

lemma apply_rot_controls_mem (a : Int) (cs : List RotControl)
    (h : a ∈ ROTATIONS_ALLOWED) : apply_rot_controls a cs ∈ ROTATIONS_ALLOWED := by
  induction cs generalizing a with
  | nil => exact h
  | cons c rest ih =>
    exact ih (apply_rot_control a c) (apply_rot_control_mem a c h)

/-- Models the Python f-string rendering of `scale_pct / 100.0` (shortest
float repr) for the slider range 10 ≤ pct ≤ 200: an integer part, a dot, and
the non-zero fractional digits (or `.0` when the division is exact). -/
def pyFloatDiv100 (pct : Int) : String :=
  let n := pct.toNat
  let ip := n / 100
  let fr := n % 100
  if fr = 0 then toString ip ++ ".0"
  else if fr % 10 = 0 then toString ip ++ "." ++ toString (fr / 10)
  else if fr < 10 then toString ip ++ ".0" ++ toString fr
  else toString ip ++ "." ++ toString fr

/-- Mirrors the `filters` list accumulated inside `ffmpeg_build_filtergraph`:
rotation, then mirror, then effect, then scale, each appended under the same
guards as the source. -/
def ffmpeg_filters (pipeline : List String) (mirror : Bool) (rotate_deg : Int)
    (scale_pct : Option Int) : List String :=
  let filters : List String := []
  let rd := rotate_deg % 360
  let filters :=
    if rd = 90 then filters ++ ["transpose=1"]
    else if rd = 270 then filters ++ ["transpose=2"]
    else if rd = 180 then filters ++ ["rotate=PI"]
    else filters
  let filters := if mirror then filters ++ ["hflip"] else filters
  let filters :=
    match pipeline with
    | [] => filters
    | step :: _ =>
      if step = "bw" then filters ++ ["hue=s=0"]
      else if step = "bwcontrast" then
        filters ++ ["hue=s=0,eq=contrast=1.35:brightness=0.0"]
      else if step = "goldenhour" then
        filters ++ ["colorbalance=rs=.10:gs=.05:bs=-.05,hue=s=1.12,eq=contrast=1.06:brightness=0.03"]
      else filters
  let filters :=
    match scale_pct with
    | none => filters
    | some pct =>
      if 10 ≤ pct ∧ pct ≤ 200 ∧ pct ≠ 100 then
        filters ++ ["scale=iw*" ++ pyFloatDiv100 pct ++ ":ih*" ++ pyFloatDiv100 pct]
      else filters
  filters

/-- Mirrors the return of `ffmpeg_build_filtergraph`:
`",".join(filters) if filters else "null"`. -/
def ffmpeg_build_filtergraph (pipeline : List String) (mirror : Bool)
    (rotate_deg : Int) (scale_pct : Option Int) : String :=
  let filters := ffmpeg_filters pipeline mirror rotate_deg scale_pct
  if filters ≠ [] then String.intercalate "," filters else "null"

/-- The rotation contribution to the filter chain, stated on its own (spec
wording: 90° → one fixed transpose, 270° → the complementary transpose,
180° → rotation by π, 0° → nothing). -/
def rotationPart (rotate_deg : Int) : List String :=
  let rd := rotate_deg % 360
  if rd = 90 then ["transpose=1"]
  else if rd = 270 then ["transpose=2"]
  else if rd = 180 then ["rotate=PI"]
  else []

/-- The mirror contribution to the filter chain, stated on its own. -/
def mirrorPart (mirror : Bool) : List String :=
  if mirror then ["hflip"] else []

/-- The effect contribution to the filter chain, stated on its own. -/
def effectPart (pipeline : List String) : List String :=
  match pipeline with
  | [] => []
  | step :: _ =>
    if step = "bw" then ["hue=s=0"]
    else if step = "bwcontrast" then ["hue=s=0,eq=contrast=1.35:brightness=0.0"]
    else if step = "goldenhour" then
      ["colorbalance=rs=.10:gs=.05:bs=-.05,hue=s=1.12,eq=contrast=1.06:brightness=0.03"]
    else []

/-- The scale contribution to the filter chain, stated on its own. -/
def scalePart (scale_pct : Option Int) : List String :=
  match scale_pct with
  | none => []
  | some pct =>
    if 10 ≤ pct ∧ pct ≤ 200 ∧ pct ≠ 100 then
      ["scale=iw*" ++ pyFloatDiv100 pct ++ ":ih*" ++ pyFloatDiv100 pct]
    else []

set_option maxHeartbeats 1000000 in
lemma ffmpeg_filters_decomp (p : List String) (m : Bool) (r : Int) (s : Option Int) :
    ffmpeg_filters p m r s = rotationPart r ++ mirrorPart m ++ effectPart p ++ scalePart s := by
  cases s <;> cases p <;> cases m <;>
    simp only [ffmpeg_filters, rotationPart, mirrorPart, effectPart, scalePart] <;>
    split_ifs <;> simp

/-- Mirrors the suffix construction inside the export handler: rotation
marker when the angle is non-zero, `"_mir"` when flat layout and mirror state
are both set, the effect suffix, and the percentage marker when resizing is
on and the percentage differs from 100. -/
def build_suffix (angle : Int) (flat_export mstate : Bool) (pipeline : List String)
    (resize_export : Bool) (export_scale_pct : Int) : String :=
  let suf := ""
  let suf := if angle ≠ 0 then suf ++ "_rot" ++ toString angle else suf
  let suf := if flat_export && mstate then suf ++ "_mir" else suf
  let suf := suf ++ apply_variant_suffix pipeline
  let suf :=
    if resize_export ∧ export_scale_pct ≠ 100 then
      suf ++ "_" ++ toString export_scale_pct ++ "pct"
    else suf
  suf

/-- Claim C3: for every combination of the four effect checkboxes
`generate_variants` returns a non-empty list, and with all four deselected it
returns exactly the single "normal" variant. -/
theorem generate_variants_nonempty (e_normal e_bw e_bwc e_gh : Bool) :
    generate_variants e_normal e_bw e_bwc e_gh ≠ [] ∧
    generate_variants false false false false = [["normal"]] := by
  constructor
  · cases e_normal <;> cases e_bw <;> cases e_bwc <;> cases e_gh <;> decide
  · decide

/-- Claim C4: starting from a stored angle in {0, 90, 180, 270}, any finite
sequence of −90°/+90°/180° button clicks (each computed modulo 360) stays in
{0, 90, 180, 270}; and the export-time clamp sends every angle into that set. -/
theorem rotation_closure (a : Int) (cs : List RotControl)
    (h : a ∈ ROTATIONS_ALLOWED) :
    apply_rot_controls a cs ∈ ROTATIONS_ALLOWED ∧
    ∀ b : Int, clamp_angle b ∈ ROTATIONS_ALLOWED ∧
      (b ∉ ROTATIONS_ALLOWED → clamp_angle b = 0) := by
  refine ⟨apply_rot_controls_mem a cs h, fun b => ?_⟩
  unfold clamp_angle
  split
  · exact ⟨by assumption, fun hb => absurd (by assumption) hb⟩
  · exact ⟨by decide, fun _ => rfl⟩

/-- Witness for C4 at a concrete start angle and click sequence. -/
theorem rotation_closure_witness :
    (90 : Int) ∈ ROTATIONS_ALLOWED ∧
    (apply_rot_controls 90 [RotControl.minus90, RotControl.plus180] ∈ ROTATIONS_ALLOWED ∧
     ∀ b : Int, clamp_angle b ∈ ROTATIONS_ALLOWED ∧
       (b ∉ ROTATIONS_ALLOWED → clamp_angle b = 0)) :=
  ⟨by decide, rotation_closure 90 [RotControl.minus90, RotControl.plus180] (by decide)⟩

/-- Claim C5: the composed filter chain lists its filters in the fixed order
rotation, mirror, effect, scale, and the rotation contribution maps 90° to
`transpose=1`, 270° to `transpose=2`, 180° to `rotate=PI`, and 0° to nothing. -/
theorem filtergraph_order (p : List String) (m : Bool) (r : Int) (s : Option Int) :
    (ffmpeg_build_filtergraph p m r s =
      if rotationPart r ++ mirrorPart m ++ effectPart p ++ scalePart s ≠ [] then
        String.intercalate "," (rotationPart r ++ mirrorPart m ++ effectPart p ++ scalePart s)
      else "null") ∧
    rotationPart 90 = ["transpose=1"] ∧ rotationPart 270 = ["transpose=2"] ∧
    rotationPart 180 = ["rotate=PI"] ∧ rotationPart 0 = [] := by
  refine ⟨?_, by decide, by decide, by decide, by decide⟩
  unfold ffmpeg_build_filtergraph
  rw [ffmpeg_filters_decomp]

/-- Claim C7: a scale percentage of exactly 100 contributes no scale filter
(the chain equals the chain with resizing off) and no scale marker in the
suffix (the suffix equals the suffix with resizing off). -/
theorem scale_100_noop (p : List String) (m : Bool) (r : Int) (angle : Int)
    (flat mstate : Bool) :
    ffmpeg_build_filtergraph p m r (some 100) = ffmpeg_build_filtergraph p m r none ∧
    scalePart (some 100) = [] ∧
    build_suffix angle flat mstate p true 100 = build_suffix angle flat mstate p false 100 := by
  refine ⟨?_, by decide, ?_⟩
  · unfold ffmpeg_build_filtergraph
    rw [ffmpeg_filters_decomp, ffmpeg_filters_decomp]
    have h : scalePart (some 100) = scalePart none := by decide
    rw [h]
  · unfold build_suffix
    simp

/-- Claim C9: when the rotation, effect and scale dimensions contribute no
filter and mirror is off, the composer returns the non-empty identity filter
`"null"`, never the empty string. -/
theorem null_filtergraph (p : List String) (r : Int) (s : Option Int)
    (h1 : rotationPart r = []) (h2 : effectPart p = []) (h3 : scalePart s = []) :
    ffmpeg_build_filtergraph p false r s = "null" ∧
    ffmpeg_build_filtergraph p false r s ≠ "" := by
  have hb : ffmpeg_build_filtergraph p false r s = "null" := by
    unfold ffmpeg_build_filtergraph
    rw [ffmpeg_filters_decomp, h1, h2, h3]
    simp [mirrorPart]
  exact ⟨hb, by rw [hb]; decide⟩

/-- Witness for C9 with pipeline ["normal"], angle 0, no scale. -/
theorem null_filtergraph_witness :
    rotationPart 0 = [] ∧ effectPart ["normal"] = [] ∧ scalePart none = [] ∧
    (ffmpeg_build_filtergraph ["normal"] false 0 none = "null" ∧
     ffmpeg_build_filtergraph ["normal"] false 0 none ≠ "") :=
  ⟨by decide, by decide, by decide,
   null_filtergraph ["normal"] 0 none (by decide) (by decide) (by decide)⟩

/-- Claim C10: the filter chain depends only on the first pipeline element
(later elements contribute no filter, and an unknown first element contributes
no filter), while the filename suffix encodes every pipeline element joined
by underscores. -/
theorem effect_head_only (hd : String) (tl : List String) (m : Bool) (r : Int)
    (s : Option Int) :
    ffmpeg_build_filtergraph (hd :: tl) m r s = ffmpeg_build_filtergraph [hd] m r s ∧
    (hd ∉ (["bw", "bwcontrast", "goldenhour"] : List String) →
      ffmpeg_build_filtergraph (hd :: tl) m r s =
        ffmpeg_build_filtergraph ([] : List String) m r s) ∧
    apply_variant_suffix (hd :: tl) = "_" ++ String.intercalate "_" (hd :: tl) := by
  refine ⟨?_, fun h => ?_, ?_⟩
  · rfl
  · have he : effectPart (hd :: tl) = effectPart [] := by
      simp only [List.mem_cons, List.not_mem_nil, or_false, not_or] at h
      obtain ⟨hbw, hbwc, hgh⟩ := h
      simp [effectPart, hbw, hbwc, hgh]
    unfold ffmpeg_build_filtergraph
    rw [ffmpeg_filters_decomp, ffmpeg_filters_decomp, he]
  · simp [apply_variant_suffix]

/-- Witness for C10: the two-element pipeline ["bw", "goldenhour"] yields the
bw-only filter chain while its suffix advertises both effects, and an unknown
first element ("sepia") contributes no filter. -/
theorem effect_head_only_witness :
    ("sepia" : String) ∉ (["bw", "bwcontrast", "goldenhour"] : List String) ∧
    ffmpeg_build_filtergraph ["sepia", "bw"] false 0 none = "null" ∧
    ffmpeg_build_filtergraph ["bw", "goldenhour"] false 0 none = "hue=s=0" ∧
    apply_variant_suffix ["bw", "goldenhour"] = "_bw_goldenhour" :=
  ⟨by decide,
   ((effect_head_only "sepia" ["bw"] false 0 none).2.1 (by decide)).trans (by decide),
   (effect_head_only "bw" ["goldenhour"] false 0 none).1.trans (by decide),
   (effect_head_only "bw" ["goldenhour"] false 0 none).2.2.trans (by decide)⟩

lemma string_append_assoc (a b c : String) : a ++ b ++ c = a ++ (b ++ c) := by
  apply String.ext
  simp [String.data_append]

lemma string_empty_append (s : String) : "" ++ s = s := by
  cases s
  rfl

/-- The filename suffix as claim C1 words it: the mirror marker appears
exactly when the variant's mirror state is true, regardless of the
archive-layout flag. -/
def claimed_suffix (angle : Int) (mstate : Bool) (pipeline : List String)
    (resize_export : Bool) (export_scale_pct : Int) : String :=
  (if angle ≠ 0 then "_rot" ++ toString angle else "") ++
  (if mstate then "_mir" else "") ++
  apply_variant_suffix pipeline ++
  (if resize_export ∧ export_scale_pct ≠ 100 then
    "_" ++ toString export_scale_pct ++ "pct"
  else "")

/-- The filename suffix as the code actually behaves (amended claim C1): the
mirror marker appears exactly when the flat-layout flag and the mirror state
are both set. -/
def amended_suffix (angle : Int) (flat_export mstate : Bool) (pipeline : List String)
    (resize_export : Bool) (export_scale_pct : Int) : String :=
  (if angle ≠ 0 then "_rot" ++ toString angle else "") ++
  (if flat_export && mstate then "_mir" else "") ++
  apply_variant_suffix pipeline ++
  (if resize_export ∧ export_scale_pct ≠ 100 then
    "_" ++ toString export_scale_pct ++ "pct"
  else "")

/-- Counterexample to claim C1 as stated: with nested layout, mirror state
true, angle 0, pipeline ["normal"] and no resize, the code's suffix is
"_normal" and carries no mirror marker. -/
theorem suffix_mirror_counterexample :
    build_suffix 0 false true ["normal"] false 100 = "_normal" ∧
    claimed_suffix 0 true ["normal"] false 100 = "_mir_normal" ∧
    build_suffix 0 false true ["normal"] false 100 ≠
      claimed_suffix 0 true ["normal"] false 100 :=
  ⟨by decide, by decide, by decide⟩

/-- Claim C1 (amended): the suffix is the concatenation, in fixed order, of
the rotation marker (iff angle ≠ 0), the mirror marker (iff flat layout and
mirror state both hold), the effect marker (always), and the scale marker
(iff resizing is active and the percentage is not 100). -/
theorem suffix_structure (angle : Int) (flat_export mstate : Bool)
    (pipeline : List String) (resize_export : Bool) (export_scale_pct : Int) :
    build_suffix angle flat_export mstate pipeline resize_export export_scale_pct =
      amended_suffix angle flat_export mstate pipeline resize_export export_scale_pct := by
  unfold build_suffix amended_suffix
  split_ifs <;>
    simp only [string_empty_append, string_append_assoc, String.append_empty]

/-- The archive-entry path of the export loop: the bare output name under
flat layout, and `base/Miroir/…` or `base/Normal/…` otherwise. -/
def arcname (flat_export mstate : Bool) (base out_name : String) : String :=
  if flat_export then out_name
  else base ++ "/" ++ (if mstate then "Miroir" else "Normal") ++ "/" ++ out_name

/-- The archive-entry path as claim C8 words it, with the second-level
directory named "Mirror". -/
def claimed_arcname (flat_export mstate : Bool) (base out_name : String) : String :=
  if flat_export then out_name
  else base ++ "/" ++ (if mstate then "Mirror" else "Normal") ++ "/" ++ out_name

/-- The archive-entry path components per the amended claim C8: first-level
directory named after the base, second-level directory "Miroir"/"Normal". -/
def amended_arcname_parts (flat_export mstate : Bool) (base out_name : String) :
    List String :=
  if flat_export then [out_name]
  else [base, if mstate then "Miroir" else "Normal", out_name]

/-- Counterexample to claim C8 as stated: the nested mirror directory is
named "Miroir", not "Mirror". -/
theorem arcname_counterexample :
    arcname false true "clip" "clip_normal.mp4" = "clip/Miroir/clip_normal.mp4" ∧
    claimed_arcname false true "clip" "clip_normal.mp4" = "clip/Mirror/clip_normal.mp4" ∧
    arcname false true "clip" "clip_normal.mp4" ≠
      claimed_arcname false true "clip" "clip_normal.mp4" :=
  ⟨by decide, by decide, by decide⟩

/-- Claim C8 (amended): the archive-entry path is the bare output filename at
the archive root under flat layout, and otherwise is nested under a first-level
directory named after the base filename and a second-level directory named
"Miroir" when the variant is mirrored and "Normal" when it is not. -/
theorem arcname_layout (flat_export mstate : Bool) (base out_name : String) :
    arcname flat_export mstate base out_name =
      String.intercalate "/" (amended_arcname_parts flat_export mstate base out_name) := by
  unfold arcname amended_arcname_parts
  cases flat_export <;> cases mstate <;> rfl

/-- Mirrors the token loop of `run_ffmpeg_export` with its `skip_next` flag:
a `-preset` or `-crf` token is re-emitted with the user value and the token
after it is skipped; every other token is passed through. -/
def final_codec_loop (speed_preset crf_str : String) (skip_next : Bool) :
    List String → List String
  | [] => []
  | tok :: rest =>
    if skip_next then final_codec_loop speed_preset crf_str false rest
    else if tok = "-preset" then
      "-preset" :: speed_preset :: final_codec_loop speed_preset crf_str true rest
    else if tok = "-crf" then
      "-crf" :: crf_str :: final_codec_loop speed_preset crf_str true rest
    else tok :: final_codec_loop speed_preset crf_str false rest

/-- The `final_codec` list of `run_ffmpeg_export` (`skip_next` starts false). -/
def final_codec (speed_preset crf_str : String) (codec_args : List String) :
    List String :=
  final_codec_loop speed_preset crf_str false codec_args

/-- Mirrors the crf clamp `int(max(0, min(51, crf)))`. -/
def clamp_crf (crf : Int) : Int := max 0 (min 51 crf)

/-- Mirrors the `cmd` list assembled by `run_ffmpeg_export`. -/
def ffmpeg_cmd (input_path output_path vf_chain : String) (codec_args : List String)
    (strip_metadata : Bool) (speed_preset : String) (crf : Int) : List String :=
  let fc := final_codec speed_preset (toString (clamp_crf crf)) codec_args
  (["ffmpeg", "-y", "-hide_banner", "-loglevel", "error", "-i", input_path,
    "-vf", vf_chain] ++ fc)
  ++ (if strip_metadata then ["-map_metadata", "-1"] else [])
  ++ ["-movflags", "+faststart", output_path]

lemma final_codec_loop_noflags (p c : String) (l : List String)
    (h : ∀ t ∈ l, t ≠ "-preset" ∧ t ≠ "-crf") :
    final_codec_loop p c false l = l := by
  induction l with
  | nil => rfl
  | cons tok rest ih =>
    have ht := h tok (by simp)
    have hr := ih (fun t htm => h t (by simp [htm]))
    simp [final_codec_loop, ht.1, ht.2, hr]

lemma final_codec_loop_append (p c : String) (a l : List String)
    (h : ∀ t ∈ a, t ≠ "-preset" ∧ t ≠ "-crf") :
    final_codec_loop p c false (a ++ l) = a ++ final_codec_loop p c false l := by
  induction a with
  | nil => simp
  | cons tok rest ih =>
    have ht := h tok (by simp)
    have hr := ih (fun t htm => h t (by simp [htm]))
    simp [final_codec_loop, ht.1, ht.2, hr]

lemma final_codec_loop_preset (p c v : String) (l : List String) :
    final_codec_loop p c false ("-preset" :: v :: l) =
      "-preset" :: p :: final_codec_loop p c false l := by
  simp [final_codec_loop]

lemma final_codec_loop_crf (p c v : String) (l : List String) :
    final_codec_loop p c false ("-crf" :: v :: l) =
      "-crf" :: c :: final_codec_loop p c false l := by
  simp [final_codec_loop]

lemma final_codec_subst (p c p0 c0 : String) (a b d : List String)
    (ha : ∀ t ∈ a, t ≠ "-preset" ∧ t ≠ "-crf")
    (hb : ∀ t ∈ b, t ≠ "-preset" ∧ t ≠ "-crf")
    (hd : ∀ t ∈ d, t ≠ "-preset" ∧ t ≠ "-crf") :
    final_codec p c (a ++ ["-preset", p0] ++ b ++ ["-crf", c0] ++ d) =
      a ++ ["-preset", p] ++ b ++ ["-crf", c] ++ d := by
  unfold final_codec
  have e1 : a ++ ["-preset", p0] ++ b ++ ["-crf", c0] ++ d =
      a ++ ("-preset" :: p0 :: (b ++ ("-crf" :: c0 :: d))) := by
    simp
  rw [e1, final_codec_loop_append p c a _ ha, final_codec_loop_preset,
    final_codec_loop_append p c b _ hb, final_codec_loop_crf,
    final_codec_loop_noflags p c d hd]
  simp

/-- Claim C6: when `-preset` and `-crf` each occur once, immediately followed
by a default value, the final command replaces the value token after each flag
with the user preset and the clamped CRF, and passes every other codec token
through unchanged in order. -/
theorem codec_substitution (input_path output_path vf_chain : String)
    (strip : Bool) (speed_preset : String) (crf : Int) (p0 c0 : String)
    (a b d : List String)
    (ha : ∀ t ∈ a, t ≠ "-preset" ∧ t ≠ "-crf")
    (hb : ∀ t ∈ b, t ≠ "-preset" ∧ t ≠ "-crf")
    (hd : ∀ t ∈ d, t ≠ "-preset" ∧ t ≠ "-crf") :
    ffmpeg_cmd input_path output_path vf_chain
        (a ++ ["-preset", p0] ++ b ++ ["-crf", c0] ++ d) strip speed_preset crf =
      ["ffmpeg", "-y", "-hide_banner", "-loglevel", "error", "-i", input_path,
        "-vf", vf_chain]
      ++ (a ++ ["-preset", speed_preset] ++ b ++
          ["-crf", toString (clamp_crf crf)] ++ d)
      ++ (if strip then ["-map_metadata", "-1"] else [])
      ++ ["-movflags", "+faststart", output_path] := by
  unfold ffmpeg_cmd
  rw [final_codec_subst _ _ p0 c0 a b d ha hb hd]

/-- Witness for C6 on the default codec list of `choose_output_format`, with
preset "veryfast" and an out-of-range CRF of 60 clamped to 51. -/
theorem codec_substitution_witness :
    (choose_output_format "clip.mov").2 =
      ["-c:v", "libx264", "-pix_fmt", "yuv420p", "-profile:v", "high"] ++
        ["-preset", "medium"] ++ [] ++ ["-crf", "18"] ++
        ["-c:a", "aac", "-b:a", "192k"] ∧
    ffmpeg_cmd "in.mov" "out.mp4" "null" (choose_output_format "clip.mov").2
        true "veryfast" 60 =
      ["ffmpeg", "-y", "-hide_banner", "-loglevel", "error", "-i", "in.mov",
        "-vf", "null"]
      ++ (["-c:v", "libx264", "-pix_fmt", "yuv420p", "-profile:v", "high"] ++
          ["-preset", "veryfast"] ++ [] ++ ["-crf", toString (clamp_crf 60)] ++
          ["-c:a", "aac", "-b:a", "192k"])
      ++ (if true then ["-map_metadata", "-1"] else [])
      ++ ["-movflags", "+faststart", "out.mp4"] := by
  constructor
  · decide
  · have h : (choose_output_format "clip.mov").2 =
        ["-c:v", "libx264", "-pix_fmt", "yuv420p", "-profile:v", "high"] ++
          ["-preset", "medium"] ++ [] ++ ["-crf", "18"] ++
          ["-c:a", "aac", "-b:a", "192k"] := by decide
    rw [h]
    exact codec_substitution "in.mov" "out.mp4" "null" true "veryfast" 60
      "medium" "18" _ _ _ (by decide) (by decide) (by decide)

/-- Models `subprocess.run(cmd)` inside `run_ffmpeg_export`: an oracle mapping
the full command line to the pair (returncode was zero, stderr text). -/
def FfmpegOracle : Type := List String → Bool × String

/-- Mirrors `run_ffmpeg_export`: builds the command, runs it through the
oracle, and returns `(ok, log_err)` — the stderr text only on failure. -/
def run_ffmpeg_export (oracle : FfmpegOracle) (input_path output_path vf_chain : String)
    (codec_args : List String) (strip_metadata : Bool) (speed_preset : String)
    (crf : Int) : Bool × String :=
  match oracle (ffmpeg_cmd input_path output_path vf_chain codec_args
      strip_metadata speed_preset crf) with
  | (true, _) => (true, "")
  | (false, err) => (false, err)

/-- The per-run options snapshot read by the export button handler. -/
structure ExportConfig where
  mirror_all : Bool
  mirror_preview : Bool
  flat_export : Bool
  resize_export : Bool
  export_scale_pct : Int
  strip_metadata : Bool
  preset : String
  crf : Int
  rotation_map : String → Int
  variants : List (List String)

/-- Mirrors `[False, True] if mirror_all else [st.session_state.mirror_preview]`. -/
def mirror_states (mirror_all mirror_preview : Bool) : List Bool :=
  if mirror_all then [false, true] else [mirror_preview]

/-- Mirrors `os.path.splitext(os.path.basename(f.name))[0]`. -/
def base_of (name : String) : String := (splitext (basename name)).1

/-- Mirrors the temp input path `tmp_root/input__<base><ext>`. -/
def in_path_of (tmp_root name : String) : String :=
  tmp_root ++ "/input__" ++ base_of name ++ ext_lower name

/-- Mirrors the per-file angle lookup plus the export-time clamp. -/
def angle_of (cfg : ExportConfig) (name : String) : Int :=
  clamp_angle (cfg.rotation_map name)

/-- Mirrors the `-vf` chain computed for one variant in the export loop. -/
def vf_of (cfg : ExportConfig) (name : String) (mstate : Bool)
    (pipeline : List String) : String :=
  ffmpeg_build_filtergraph pipeline mstate (angle_of cfg name)
    (if cfg.resize_export then some cfg.export_scale_pct else none)

/-- Mirrors `out_name = f"{base}{suf}{out_ext}"`. -/
def out_name_of (cfg : ExportConfig) (name : String) (mstate : Bool)
    (pipeline : List String) : String :=
  base_of name ++
    build_suffix (angle_of cfg name) cfg.flat_export mstate pipeline
      cfg.resize_export cfg.export_scale_pct ++
    (choose_output_format name).1

/-- Mirrors the output directory choice (`out_flat` under flat layout). -/
def out_dir_of (cfg : ExportConfig) (tmp_root name : String) (mstate : Bool) : String :=
  if cfg.flat_export then tmp_root ++ "/out_flat"
  else tmp_root ++ "/out/" ++ base_of name ++ "/" ++
    (if mstate then "Miroir" else "Normal")

/-- The output file path of one variant. -/
def out_path_of (cfg : ExportConfig) (tmp_root name : String) (mstate : Bool)
    (pipeline : List String) : String :=
  out_dir_of cfg tmp_root name mstate ++ "/" ++ out_name_of cfg name mstate pipeline

/-- The single transcoder invocation for one variant of one file. -/
def run_variant (oracle : FfmpegOracle) (cfg : ExportConfig) (tmp_root name : String)
    (mstate : Bool) (pipeline : List String) : Bool × String :=
  run_ffmpeg_export oracle (in_path_of tmp_root name)
    (out_path_of cfg tmp_root name mstate pipeline) (vf_of cfg name mstate pipeline)
    (choose_output_format name).2 cfg.strip_metadata cfg.preset cfg.crf

/-- Mirrors the `RuntimeError` message raised on a failed invocation:
`f"ffmpeg a échoué pour {f.name} ({out_name}) : {log}"`. -/
def fail_msg (fname out_name log : String) : String :=
  "ffmpeg a échoué pour " ++ fname ++ " (" ++ out_name ++ ") : " ++ log

/-- The innermost export loop: one file, one mirror state, all pipelines.
Returns the archive entry names in insertion order, or the first failure. -/
def export_variants (oracle : FfmpegOracle) (cfg : ExportConfig)
    (tmp_root name : String) (mstate : Bool) :
    List (List String) → Except String (List String)
  | [] => .ok []
  | pipeline :: rest =>
    match run_variant oracle cfg tmp_root name mstate pipeline with
    | (false, log) =>
      .error (fail_msg name (out_name_of cfg name mstate pipeline) log)
    | (true, _) =>
      match export_variants oracle cfg tmp_root name mstate rest with
      | .error e => .error e
      | .ok arcs =>
        .ok (arcname cfg.flat_export mstate (base_of name)
          (out_name_of cfg name mstate pipeline) :: arcs)

/-- The mirror-state loop of the export handler for one file. -/
def export_mirrors (oracle : FfmpegOracle) (cfg : ExportConfig)
    (tmp_root name : String) : List Bool → Except String (List String)
  | [] => .ok []
  | m :: rest =>
    match export_variants oracle cfg tmp_root name m cfg.variants with
    | .error e => .error e
    | .ok arcs =>
      match export_mirrors oracle cfg tmp_root name rest with
      | .error e => .error e
      | .ok more => .ok (arcs ++ more)

/-- The file loop of the export handler. -/
def export_files (oracle : FfmpegOracle) (cfg : ExportConfig) (tmp_root : String) :
    List String → Except String (List String)
  | [] => .ok []
  | name :: rest =>
    match export_mirrors oracle cfg tmp_root name
        (mirror_states cfg.mirror_all cfg.mirror_preview) with
    | .error e => .error e
    | .ok arcs =>
      match export_files oracle cfg tmp_root rest with
      | .error e => .error e
      | .ok more => .ok (arcs ++ more)

/-- Outcome of one export run: the archive entry list or the raised error,
plus whether the `finally` block released the temporary directory. -/
structure ExportOutcome where
  result : Except String (List String)
  tmp_removed : Bool

/-- Mirrors the export button handler: run the loops inside `try`, and on
both the success path and the `except` path the `finally` block removes the
temporary directory. -/
def do_export (oracle : FfmpegOracle) (cfg : ExportConfig) (tmp_root : String)
    (files : List String) : ExportOutcome :=
  match export_files oracle cfg tmp_root files with
  | .ok arcs => ⟨.ok arcs, true⟩
  | .error e => ⟨.error e, true⟩

lemma export_variants_err (oracle : FfmpegOracle) (cfg : ExportConfig)
    (tmp_root name : String) (mstate : Bool) :
    ∀ (ps : List (List String)) (e : String),
      export_variants oracle cfg tmp_root name mstate ps = .error e →
      ∃ p log, p ∈ ps ∧ run_variant oracle cfg tmp_root name mstate p = (false, log) ∧
        e = fail_msg name (out_name_of cfg name mstate p) log := by
  intro ps
  induction ps with
  | nil => intro e h; simp [export_variants] at h
  | cons q rest ih =>
    intro e h
    simp only [export_variants] at h
    rcases hq : run_variant oracle cfg tmp_root name mstate q with ⟨ok, log⟩
    rw [hq] at h
    cases ok with
    | false =>
      simp only [Except.error.injEq] at h
      exact ⟨q, log, by simp, hq, h.symm⟩
    | true =>
      cases hrest : export_variants oracle cfg tmp_root name mstate rest with
      | error e2 =>
        rw [hrest] at h
        simp only [Except.error.injEq] at h
        obtain ⟨p, log2, hp, hfail, he⟩ := ih e2 hrest
        exact ⟨p, log2, by simp [hp], hfail, h ▸ he⟩
      | ok arcs =>
        rw [hrest] at h
        simp at h
  

lemma export_variants_fail (oracle : FfmpegOracle) (cfg : ExportConfig)
    (tmp_root name : String) (mstate : Bool) :
    ∀ (ps : List (List String)) (p : List String), p ∈ ps →
      (run_variant oracle cfg tmp_root name mstate p).1 = false →
      ∃ e, export_variants oracle cfg tmp_root name mstate ps = .error e := by
  intro ps
  induction ps with
  | nil => intro p hp; simp at hp
  | cons q rest ih =>
    intro p hp hfail
    simp only [export_variants]
    rcases hq : run_variant oracle cfg tmp_root name mstate q with ⟨ok, log⟩
    cases ok with
    | false => exact ⟨_, rfl⟩
    | true =>
      have hpr : p ∈ rest := by
        rcases List.mem_cons.mp hp with h | h
        · exfalso; rw [h, hq] at hfail; simp at hfail
        · exact h
      obtain ⟨e, he⟩ := ih p hpr hfail
      exact ⟨e, by simp [he]⟩

lemma export_mirrors_err (oracle : FfmpegOracle) (cfg : ExportConfig)
    (tmp_root name : String) :
    ∀ (ms : List Bool) (e : String),
      export_mirrors oracle cfg tmp_root name ms = .error e →
      ∃ m p log, m ∈ ms ∧ p ∈ cfg.variants ∧
        run_variant oracle cfg tmp_root name m p = (false, log) ∧
        e = fail_msg name (out_name_of cfg name m p) log := by
  intro ms
  induction ms with
  | nil => intro e h; simp [export_mirrors] at h
  | cons m0 rest ih =>
    intro e h
    simp only [export_mirrors] at h
    cases hv : export_variants oracle cfg tmp_root name m0 cfg.variants with
    | error e2 =>
      rw [hv] at h
      simp only [Except.error.injEq] at h
      obtain ⟨p, log, hp, hfail, he⟩ := export_variants_err oracle cfg tmp_root name m0 _ e2 hv
      exact ⟨m0, p, log, by simp, hp, hfail, h ▸ he⟩
    | ok arcs =>
      rw [hv] at h
      cases hrest : export_mirrors oracle cfg tmp_root name rest with
      | error e2 =>
        rw [hrest] at h
        simp only [Except.error.injEq] at h
        obtain ⟨m, p, log, hm, hp, hfail, he⟩ := ih e2 hrest
        exact ⟨m, p, log, by simp [hm], hp, hfail, h ▸ he⟩
      | ok more =>
        rw [hrest] at h
        simp at h

lemma export_mirrors_fail (oracle : FfmpegOracle) (cfg : ExportConfig)
    (tmp_root name : String) :
    ∀ (ms : List Bool) (m : Bool) (p : List String), m ∈ ms → p ∈ cfg.variants →
      (run_variant oracle cfg tmp_root name m p).1 = false →
      ∃ e, export_mirrors oracle cfg tmp_root name ms = .error e := by
  intro ms
  induction ms with
  | nil => intro m p hm; simp at hm
  | cons m0 rest ih =>
    intro m p hm hp hfail
    simp only [export_mirrors]
    cases hv : export_variants oracle cfg tmp_root name m0 cfg.variants with
    | error e2 => exact ⟨e2, rfl⟩
    | ok arcs =>
      have hmr : m ∈ rest := by
        rcases List.mem_cons.mp hm with h | h
        · exfalso
          subst h
          obtain ⟨e, he⟩ := export_variants_fail oracle cfg tmp_root name m
            cfg.variants p hp hfail
          rw [he] at hv
          exact Except.noConfusion hv
        · exact h
      obtain ⟨e, he⟩ := ih m p hmr hp hfail
      rw [he]
      exact ⟨e, rfl⟩

lemma export_files_err (oracle : FfmpegOracle) (cfg : ExportConfig) (tmp_root : String) :
    ∀ (files : List String) (e : String),
      export_files oracle cfg tmp_root files = .error e →
      ∃ name m p log, name ∈ files ∧
        m ∈ mirror_states cfg.mirror_all cfg.mirror_preview ∧ p ∈ cfg.variants ∧
        run_variant oracle cfg tmp_root name m p = (false, log) ∧
        e = fail_msg name (out_name_of cfg name m p) log := by
  intro files
  induction files with
  | nil => intro e h; simp [export_files] at h
  | cons n0 rest ih =>
    intro e h
    simp only [export_files] at h
    cases hv : export_mirrors oracle cfg tmp_root n0
        (mirror_states cfg.mirror_all cfg.mirror_preview) with
    | error e2 =>
      rw [hv] at h
      simp only [Except.error.injEq] at h
      obtain ⟨m, p, log, hm, hp, hfail, he⟩ := export_mirrors_err oracle cfg tmp_root n0 _ e2 hv
      exact ⟨n0, m, p, log, by simp, hm, hp, hfail, h ▸ he⟩
    | ok arcs =>
      rw [hv] at h
      cases hrest : export_files oracle cfg tmp_root rest with
      | error e2 =>
        rw [hrest] at h
        simp only [Except.error.injEq] at h
        obtain ⟨n, m, p, log, hn, hm, hp, hfail, he⟩ := ih e2 hrest
        exact ⟨n, m, p, log, by simp [hn], hm, hp, hfail, h ▸ he⟩
      | ok more =>
        rw [hrest] at h
        simp at h

lemma export_files_fail (oracle : FfmpegOracle) (cfg : ExportConfig) (tmp_root : String) :
    ∀ (files : List String) (name : String) (m : Bool) (p : List String),
      name ∈ files → m ∈ mirror_states cfg.mirror_all cfg.mirror_preview →
      p ∈ cfg.variants → (run_variant oracle cfg tmp_root name m p).1 = false →
      ∃ e, export_files oracle cfg tmp_root files = .error e := by
  intro files
  induction files with
  | nil => intro name m p hn; simp at hn
  | cons n0 rest ih =>
    intro name m p hn hm hp hfail
    simp only [export_files]
    cases hv : export_mirrors oracle cfg tmp_root n0
        (mirror_states cfg.mirror_all cfg.mirror_preview) with
    | error e2 => exact ⟨e2, rfl⟩
    | ok arcs =>
      have hnr : name ∈ rest := by
        rcases List.mem_cons.mp hn with h | h
        · exfalso
          subst h
          obtain ⟨e, he⟩ := export_mirrors_fail oracle cfg tmp_root name _ m p hm hp hfail
          rw [he] at hv
          exact Except.noConfusion hv
        · exact h
      obtain ⟨e, he⟩ := ih name m p hnr hm hp hfail
      rw [he]
      exact ⟨e, rfl⟩

/-- Claim C2: if the transcoder invocation fails for any variant of any file
in the run, the run aborts with an error whose message is exactly the
fail-fast message naming a failing file, that variant's output name, and the
tool's diagnostic text; no archive results; and the temporary directory is
removed on this and every other exit path. -/
theorem export_fail_fast (oracle : FfmpegOracle) (cfg : ExportConfig)
    (tmp_root : String) (files : List String) (name : String) (m : Bool)
    (p : List String) (hf : name ∈ files)
    (hm : m ∈ mirror_states cfg.mirror_all cfg.mirror_preview)
    (hp : p ∈ cfg.variants)
    (hfail : (run_variant oracle cfg tmp_root name m p).1 = false) :
    (∃ name2 m2 p2 log, name2 ∈ files ∧
      m2 ∈ mirror_states cfg.mirror_all cfg.mirror_preview ∧ p2 ∈ cfg.variants ∧
      run_variant oracle cfg tmp_root name2 m2 p2 = (false, log) ∧
      (do_export oracle cfg tmp_root files).result =
        .error ("ffmpeg a échoué pour " ++ name2 ++ " (" ++
          out_name_of cfg name2 m2 p2 ++ ") : " ++ log)) ∧
    (do_export oracle cfg tmp_root files).result.isOk = false ∧
    (∀ (oracle2 : FfmpegOracle) (files2 : List String),
      (do_export oracle2 cfg tmp_root files2).tmp_removed = true) := by
  obtain ⟨e, he⟩ := export_files_fail oracle cfg tmp_root files name m p hf hm hp hfail
  obtain ⟨n2, m2, p2, log, hn2, hm2, hp2, hfail2, hmsg⟩ :=
    export_files_err oracle cfg tmp_root files e he
  have hres : (do_export oracle cfg tmp_root files).result = .error e := by
    simp [do_export, he]
  refine ⟨⟨n2, m2, p2, log, hn2, hm2, hp2, hfail2, ?_⟩, ?_, ?_⟩
  · rw [hres, hmsg]
    simp [fail_msg, string_append_assoc]
  · rw [hres]
    rfl
  · intro oracle2 files2
    unfold do_export
    cases export_files oracle2 cfg tmp_root files2 <;> rfl

/-- The configuration used by the C2 witness: no mirror-both, nested layout,
no resize, one "normal" variant, every rotation 0. -/
def witnessCfg : ExportConfig :=
  ExportConfig.mk false false false false 100 true "medium" 18 (fun _ => 0)
    [["normal"]]

/-- The oracle used by the C2 witness: every invocation fails with
diagnostic "boom". -/
def witnessOracle : FfmpegOracle := fun _ => (false, "boom")

/-- Witness for C2: with a single file and an always-failing transcoder, the
run yields no archive and the temporary directory is removed. -/
theorem export_fail_fast_witness :
    (do_export witnessOracle witnessCfg "/tmp/spoofer" ["clip.mp4"]).result.isOk = false ∧
    (do_export witnessOracle witnessCfg "/tmp/spoofer" ["clip.mp4"]).tmp_removed = true := by
  have h := export_fail_fast witnessOracle witnessCfg "/tmp/spoofer" ["clip.mp4"]
    "clip.mp4" false ["normal"] (by simp) (by simp [witnessCfg, mirror_states])
    (by simp [witnessCfg]) (by rfl)
  exact ⟨h.2.1, h.2.2 witnessOracle ["clip.mp4"]⟩

end Spoofer
